import Mathlib

/-!
Shallow embedding of the answer-resolution pipeline of the educational
question-answering service (files `app.py` and `gemini_multimodal.py`).

Text values are modelled as `List Char` (named `Str` below).  Python's
`str.lower()` is modelled character-wise with `Char.toLower` (the source's
Arabic text is unaffected by case folding, and SQLite's `LOWER` folds ASCII
only); `str.strip()` is modelled by dropping whitespace on both ends.
Wall-clock instants, backoff delays and jitter are modelled as rationals.
-/

abbrev Str := List Char

/-- Convert a string literal into the `List Char` representation. -/
def ofStr (s : String) : Str := s.toList

/-- Python truthiness of a string: non-empty. -/
def strTruthy (s : Str) : Bool := !s.isEmpty

/-- Python truthiness of an optional string (`None` and `""` are falsy). -/
def optTruthy : Option Str → Bool
  | none => false
  | some s => strTruthy s

/-- Character-wise case folding, modelling `str.lower()` / SQL `LOWER`. -/
def lowerS (s : Str) : Str := s.map Char.toLower

/-- `needle.isPrefixOf hay` on raw char lists. -/
def isPrefixList : Str → Str → Bool
  | [], _ => true
  | _ :: _, [] => false
  | a :: as, b :: bs => a == b && isPrefixList as bs

/-- `needle in hay` (Python substring test / SQL `LIKE '%needle%'`). -/
def strContains : Str → Str → Bool
  | [], needle => needle.isEmpty
  | h :: t, needle => isPrefixList needle (h :: t) || strContains t needle

/-- Python `str.strip()`: drop whitespace from both ends. -/
def stripS (s : Str) : Str :=
  ((s.dropWhile Char.isWhitespace).reverse.dropWhile Char.isWhitespace).reverse

/-- Split a char list at every delimiter character, keeping empty segments
(the semantics of `re.split` on a character class). -/
def splitP (p : Char → Bool) : Str → List Str
  | [] => [[]]
  | c :: cs =>
    if p c then [] :: splitP p cs
    else
      match splitP p cs with
      | [] => [[c]]
      | w :: ws => (c :: w) :: ws

/-- Python `' '.join(words)`. -/
def joinWords : List Str → Str
  | [] => []
  | [w] => w
  | w :: x :: xs => w ++ ' ' :: joinWords (x :: xs)

/-! ## `gemini_multimodal.gemini_with_retry` (gemini_multimodal.py, lines 39-72)

The underlying call, the clock and the jitter source are external effects,
modelled by an environment: `callResult k` is what `func()` does when invoked
at loop iteration `k` (`.ok` = the returned response's `.text`, where `none`
models a falsy response, `.error m` = an exception with message `m`);
`elapsed k` is the value of `time.time() - start_time` read at the top of
iteration `k`; `jitter k` is the `random.uniform(0, 0.5)` draw of iteration
`k`.  The function returns its result together with the trace of external
events it performed (underlying calls and `time.sleep` durations). -/

structure RetryEnv where
  callResult : Nat → Except Str (Option Str)
  elapsed : Nat → ℚ
  jitter : Nat → ℚ

inductive RetryEv where
  | call (k : Nat)
  | sleep (d : ℚ)
deriving DecidableEq

inductive RetryResult where
  | done (r : Option Str)
  | raised (msg : Str)
deriving DecidableEq

/-- `str(e)` of the timeout exception raised inside the loop body. -/
def timeoutMsg : Str := ofStr "Timeout exceeded while waiting for Gemini API"

/-- `str(e)` of the exception raised after the `for` loop ends. -/
def maxRetriesMsg : Str := ofStr "Maximum retry attempts reached"

/-- The transient-error classifier: the lowercased error text contains
`"503"`, `"overloaded"`, `"unavailable"` or `"timeout"`. -/
def isTransientMsg (m : Str) : Bool :=
  let e := lowerS m
  strContains e (ofStr "503") || strContains e (ofStr "overloaded") ||
    strContains e (ofStr "unavailable") || strContains e (ofStr "timeout")

/-- Python's binary `min` on the rational time model, written as the
explicit comparison so that concrete runs evaluate. -/
def ratMin (a b : ℚ) : ℚ := if a ≤ b then a else b

theorem ratMin_eq (a b : ℚ) : ratMin a b = min a b := (min_def a b).symm

/-- One `for attempt in range(max_retries)` loop, as recursion on the number
of remaining iterations (`fuel = maxRetries - attempt`). -/
def retryGo (env : RetryEnv) (maxRetries : Nat) (timeout : ℚ) :
    Nat → Nat → ℚ → RetryResult × List RetryEv
  | 0, _, _ => (.raised maxRetriesMsg, [])
  | fuel + 1, attempt, retryDelay =>
    let step : Except Str (Option Str) × List RetryEv :=
      if timeout < env.elapsed attempt then (.error timeoutMsg, [])
      else
        match env.callResult attempt with
        | .ok v => (.ok v, [RetryEv.call attempt])
        | .error m => (.error m, [RetryEv.call attempt])
    match step with
    | (.ok v, evs) => (.done v, evs)
    | (.error m, evs) =>
      if isTransientMsg m then
        if attempt = maxRetries - 1 then (.raised m, evs)
        else
          let sleepTime := ratMin (retryDelay + env.jitter attempt) 5
          let rest :=
            retryGo env maxRetries timeout fuel (attempt + 1)
              (ratMin (retryDelay * (3 / 2)) 5)
          (rest.1, evs ++ RetryEv.sleep sleepTime :: rest.2)
      else (.raised m, evs)

/-- `gemini_with_retry(func, max_retries, timeout)`: starts at attempt `0`
with `retry_delay = 1`. -/
def gemini_with_retry (env : RetryEnv) (maxRetries : Nat) (timeout : ℚ) :
    RetryResult × List RetryEv :=
  retryGo env maxRetries timeout maxRetries 0 1

/-- The attempt indices at which the underlying function was actually called. -/
def callIdxs (tr : List RetryEv) : List Nat :=
  tr.filterMap fun ev => match ev with | .call k => some k | .sleep _ => none

/-- The sequence of backoff wait durations, in order. -/
def sleepsOf (tr : List RetryEv) : List ℚ :=
  tr.filterMap fun ev => match ev with | .call _ => none | .sleep d => some d

/-! ## `search_in_book` (app.py, lines 450-504)

A row of the `book_qa` table.  The two SQL queries are modelled over the
table as a list of rows: `LIKE '%needle%'` is substring containment,
`ORDER BY CASE ... END LIMIT 1` picks a row of minimal rank (the first such
row in table order; SQLite leaves the order of equally ranked rows
unspecified, and every theorem below depends only on ranks). -/

structure BookEntry where
  question : Str
  answer : Str
  keywords : Str
  gradeId : Nat
  semesterId : Nat
  departmentId : Nat
deriving DecidableEq

/-- `LOWER(col) LIKE '%terms%'`. -/
def likeContains (col terms : Str) : Bool := strContains (lowerS col) terms

/-- `WHERE` clause of the first (scoped) query. -/
def scopedCandidate (terms : Str) (g s d : Nat) (e : BookEntry) : Bool :=
  e.gradeId == g && e.semesterId == s && e.departmentId == d &&
    (likeContains e.question terms || likeContains e.keywords terms ||
      likeContains e.answer terms)

/-- `ORDER BY CASE` rank of the first (scoped) query. -/
def scopedRank (terms : Str) (e : BookEntry) : Nat :=
  if lowerS e.question = terms then 1
  else if likeContains e.question terms then 2
  else if likeContains e.keywords terms then 3
  else 4

/-- `WHERE` clause of the second (relaxed, department-free) query. -/
def relaxedCandidate (terms : Str) (g s : Nat) (e : BookEntry) : Bool :=
  e.gradeId == g && e.semesterId == s &&
    (likeContains e.question terms || likeContains e.keywords terms)

/-- `ORDER BY CASE` rank of the second query. -/
def relaxedRank (terms : Str) (e : BookEntry) : Nat :=
  if likeContains e.question terms then 1
  else if likeContains e.keywords terms then 2
  else 3

/-- `ORDER BY rank LIMIT 1`: first row of minimal rank. -/
def pickFirstMinBy (rank : BookEntry → Nat) : List BookEntry → Option BookEntry
  | [] => none
  | e :: es =>
    match pickFirstMinBy rank es with
    | none => some e
    | some b => if rank e ≤ rank b then some e else some b

/-- Match kind returned alongside a knowledge-base answer. -/
def bookKind : Str := ofStr "book"

/-- `search_in_book(question, grade_id, semester_id, department_id)` over a
knowledge base `kb` (the `book_qa` table). -/
def search_in_book (kb : List BookEntry) (question : Str) (g s d : Nat) :
    Option (Str × Str) :=
  let terms := lowerS (stripS question)
  match pickFirstMinBy (scopedRank terms) (kb.filter (scopedCandidate terms g s d)) with
  | some e => some (e.answer, bookKind)
  | none =>
    match pickFirstMinBy (relaxedRank terms) (kb.filter (relaxedCandidate terms g s)) with
    | some e => some (e.answer, bookKind)
    | none => none

/-! ## `check_answer_from_curriculum` (app.py, lines 597-678)

The database fetch is modelled by passing the fetched rows directly: `docs`
is the list of `content` values of the `active` curriculum documents matching
the full (grade, semester, department) context (the SQL already filters out
`NULL` and `''` contents).  The float threshold `matches/total >= 0.15` is
the exact rational comparison `3 * total ≤ 20 * matches`. -/

/-- The fixed refusal/rejection phrase set (app.py, lines 626-629). -/
def rejection_phrases : List Str :=
  [ofStr "غير موجود", ofStr "ليس في المنهج", ofStr "خارج نطاق",
   ofStr "غير مقرر", ofStr "ليس مقرر", ofStr "غير متوفر",
   ofStr "لا أستطيع", ofStr "عذراً", ofStr "لا يمكنني"]

/-- `re.split(r'[.!?。]', ...)` delimiter test. -/
def isSentenceEnd (c : Char) : Bool :=
  c == '.' || c == '!' || c == '?' || c == '。'

/-- Python `sentence.split()`: split on whitespace, dropping empty pieces. -/
def pyWords (s : Str) : List Str :=
  (splitP Char.isWhitespace s).filter fun w => !w.isEmpty

/-- The overlapping 4-to-6-word windows taken from one sentence:
`for i in range(len(words) - 3): phrase = ' '.join(words[i:i+min(6, len(words)-i)])`,
kept when `len(phrase) > 15`, appended as `phrase.strip()`. -/
def phrasesOfSentence (ws : List Str) : List Str :=
  if 4 ≤ ws.length then
    (List.range (ws.length - 3)).filterMap fun i =>
      let phrase := joinWords ((ws.drop i).take (min 6 (ws.length - i)))
      if 15 < phrase.length then some (stripS phrase) else none
  else []

/-- All candidate phrases generated from the cleaned answer. -/
def geminiPhrases (clean : Str) : List Str :=
  ((splitP isSentenceEnd clean).map pyWords).map phrasesOfSentence |>.flatten

/-- `content_row[0].lower().strip() if content_row[0] else ""`. -/
def pyDocNorm (doc : Str) : Str :=
  if strTruthy doc then stripS (lowerS doc) else []

/-- Number of generated phrases occurring verbatim in the document text. -/
def phraseMatches (clean t : Str) : Nat :=
  ((geminiPhrases clean).filter fun p => strContains t p).length

/-- The per-document body of the matching loop: `continue` on an empty
normalized text, else test
`total_phrases > 0 and (matches/total_phrases >= 0.15 or matches >= 2)`. -/
def docVerifies (clean doc : Str) : Bool :=
  let t := pyDocNorm doc
  if t.isEmpty then false
  else
    let total := (geminiPhrases clean).length
    let nMatch := phraseMatches clean t
    decide (0 < total) &&
      (decide (3 * total ≤ 20 * nMatch) || decide (2 ≤ nMatch))

/-- `check_answer_from_curriculum(gemini_answer, ...)` over the fetched
document contents `docs`. -/
def check_answer_from_curriculum (gemini_answer : Str) (docs : List Str) : Bool :=
  if !strTruthy gemini_answer then false
  else if docs.isEmpty then false
  else
    let clean := stripS (lowerS gemini_answer)
    if rejection_phrases.any (fun p => strContains clean p) then false
    else if docs.any (fun doc => docVerifies clean doc) then true
    else if 800 < gemini_answer.length then true
    else false

/-! ## `get_gemini_response` (app.py, lines 506-595)

Only the control flow that decides the returned value is modelled: the prompt
that is assembled from context names and curriculum text does not influence
it.  `clientAvailable` models `gemini_client` being non-`None`;
`retryOutcome` models what `gemini_with_retry(call_gemini_text)` does
(`.ok r` = it returned a response whose `.text` is `r`, with `none` for a
falsy response or missing text; `.error m` = it raised an exception with
message `m`).  The `except` handler at line 588 converts any raised error
into a fixed apology string. -/

/-- The fixed apology returned when the Gemini call raises (app.py, line 591). -/
def geminiErrorMsg : Str :=
  ofStr "عذراً، حدث خطأ أثناء معالجة سؤالك. يرجى المحاولة مرة أخرى أو إعادة صياغة السؤال."

def get_gemini_response (clientAvailable : Bool)
    (retryOutcome : Except Str (Option Str)) : Option Str :=
  if !clientAvailable then none
  else
    match retryOutcome with
    | .ok r => r
    | .error _ => some geminiErrorMsg

/-- Convert a `gemini_with_retry` result into the outcome seen by its caller. -/
def retryToOutcome : RetryResult → Except Str (Option Str)
  | .done r => .ok r
  | .raised m => .error m

/-! ## `handle_chat` (app.py, lines 842-1040)

The handler's decision logic is modelled as a pure function over the request
fields and an environment of external dependencies.  Besides the produced
response and `response_source` tag, the model records which collaborator
stages actually ran, so that "never invoked" properties can be stated.  The
database write and the response envelope after line 1000 do not affect the
chosen answer and are not modelled. -/

structure CallLog where
  matcherCalled : Bool
  genCalled : Bool
  /-- `some b` iff `check_answer_from_curriculum` ran and returned `b`. -/
  verifierResult : Option Bool
  extractorCalled : Bool
  fileDeleted : Bool
deriving DecidableEq

def noCalls : CallLog :=
  { matcherCalled := false, genCalled := false, verifierResult := none,
    extractorCalled := false, fileDeleted := false }

structure ChatResult where
  response : Str
  source : Str
  log : CallLog
deriving DecidableEq

/-- A request either ends in an early `{'success': False, 'error': ...}`
return or in a normal answer. -/
inductive ChatOutcome where
  | errorResp (msg : Str)
  | answer (r : ChatResult)
deriving DecidableEq

/-- External effects of the file branch (app.py, lines 892-968):
`secure_filename`, the path checks, and the three `gemini_multimodal`
analyzers (`.error` = the analyzer raised). -/
structure FileDeps where
  securedName : Str
  pathInUploadDir : Bool
  fileExists : Bool
  hasAnalyzeDocument : Bool
  hasAnalyzeAudio : Bool
  analyzeImageResult : Except Str Str
  analyzeDocumentResult : Except Str Str
  analyzeAudioResult : Except Str Str
  fileStillExists : Bool

structure ChatDeps where
  kb : List BookEntry
  geminiClientAvailable : Bool
  retryOutcome : Except Str (Option Str)
  /-- Active curriculum documents of the request context, as fetched by
  `check_answer_from_curriculum`. -/
  docs : List Str
  departmentName : Str
  fileDeps : FileDeps

structure ChatInput where
  username : Str
  message : Str
  fileIdRaw : Str
  confirmAnswer : Option Str
  pendingAnswer : Option Str

/-- The accept-phrase set of the confirmation branch (app.py, line 886). -/
def acceptPhrases : List Str :=
  [ofStr "نعم", ofStr "اه", ofStr "موافق", ofStr "yes", ofStr "نعم أريد الإجابة"]

/-- The fixed cancellation message (app.py, line 890). -/
def cancelMsg : Str :=
  ofStr "تم إلغاء الإجابة. يمكنك إعادة صياغة السؤال أو مراجعة المعلم."

def bookSrc : Str := ofStr "book"
def geminiSrc : Str := ofStr "gemini"
def cancelledSrc : Str := ofStr "cancelled"
def geminiVisionSrc : Str := ofStr "gemini_vision"
def errorSrc : Str := ofStr "error"
def defaultSrc : Str := ofStr "default"

/-- The placeholder used when a taxonomy name is missing (`'غير محدد'`). -/
def unspecifiedName : Str := ofStr "غير محدد"

/-- The deflection message built at app.py line 997 (an f-string over the
department name). -/
def deflectionMsg (departmentName : Str) : Str :=
  ofStr "عذراً، لم أتمكن من العثور على إجابة دقيقة لسؤالك حول " ++
    (if departmentName ≠ unspecifiedName then departmentName
     else ofStr "هذا الموضوع") ++
    ofStr ". يرجى إعادة صياغة السؤال بطريقة أوضح أو مراجعة معلمك للحصول على معلومات متخصصة عن هذا الموضوع."

def imageExts : List Str :=
  [ofStr "jpg", ofStr "jpeg", ofStr "png", ofStr "gif", ofStr "webp"]

def documentExts : List Str := [ofStr "pdf", ofStr "doc", ofStr "docx", ofStr "txt"]

def audioExts : List Str :=
  [ofStr "mp3", ofStr "wav", ofStr "m4a", ofStr "ogg", ofStr "flac", ofStr "webm"]

/-- `ALLOWED_EXTENSIONS` (app.py, line 133; note: no `webp`). -/
def ALLOWED_EXTENSIONS : List Str :=
  [ofStr "txt", ofStr "pdf", ofStr "doc", ofStr "docx", ofStr "jpg",
   ofStr "jpeg", ofStr "png", ofStr "gif", ofStr "mp3", ofStr "wav",
   ofStr "m4a", ofStr "ogg", ofStr "flac", ofStr "webm"]

/-- `file_id.rsplit('.', 1)[1].lower() if '.' in file_id else ''`. -/
def extOf (s : Str) : Str :=
  if s.contains '.' then lowerS ((s.reverse.takeWhile (fun c => c ≠ '.')).reverse)
  else []

/-- Outcome of one analyzer invocation: the produced response text and
whether processing succeeded (`processing_success`). -/
def runAnalyzer (res : Except Str Str) (failMsg : Str) : Str × Bool :=
  match res with
  | .ok r => (r, true)
  | .error _ => (failMsg, false)

/-- The `elif file_id:` branch (app.py, lines 892-968). -/
def handleFileBranch (fd : FileDeps) : ChatOutcome :=
  let fid := fd.securedName
  if !strTruthy fid then .errorResp (ofStr "اسم الملف غير صالح")
  else if !fd.pathInUploadDir then .errorResp (ofStr "مسار الملف غير صالح")
  else if !fd.fileExists then .errorResp (ofStr "الملف غير موجود")
  else
    let ext := extOf fid
    if !(ALLOWED_EXTENSIONS.contains ext) then
      .errorResp (ofStr "نوع الملف غير مسموح")
    else
      let branch : Option (Str × Bool × Bool) :=
        if imageExts.contains ext then
          let (r, ok) := runAnalyzer fd.analyzeImageResult (ofStr "حدث خطأ في تحليل الصورة")
          some (r, ok, true)
        else if documentExts.contains ext then
          if fd.hasAnalyzeDocument then
            let (r, ok) := runAnalyzer fd.analyzeDocumentResult (ofStr "حدث خطأ في تحليل المستند")
            some (r, ok, true)
          else some (ofStr "تحليل المستندات غير متوفر حالياً", false, false)
        else if audioExts.contains ext then
          if fd.hasAnalyzeAudio then
            let (r, ok) := runAnalyzer fd.analyzeAudioResult (ofStr "حدث خطأ في تحليل الملف الصوتي")
            some (r, ok, true)
          else some (ofStr "تحليل الملفات الصوتية غير متوفر حالياً", false, false)
        else none
      match branch with
      | none => .errorResp (ofStr "نوع الملف غير مدعوم للتحليل")
      | some (response, ok, analyzerRan) =>
        .answer
          { response := response, source := geminiVisionSrc,
            log :=
              { matcherCalled := false, genCalled := false,
                verifierResult := none, extractorCalled := analyzerRan,
                fileDeleted := ok && fd.pathInUploadDir && fd.fileStillExists } }

/-- `handle_chat` over a request with context identifiers `g`, `s`, `d`. -/
def handle_chat (deps : ChatDeps) (inp : ChatInput) (g s d : Nat) : ChatOutcome :=
  let username := stripS inp.username
  if !strTruthy username then .errorResp (ofStr "اسم المستخدم مطلوب")
  else
    let question := stripS inp.message
    let file_id := stripS inp.fileIdRaw
    if !strTruthy question && !strTruthy file_id then
      .errorResp (ofStr "السؤال أو الملف مطلوب")
    else if optTruthy inp.confirmAnswer && optTruthy inp.pendingAnswer then
      let c := inp.confirmAnswer.getD []
      if acceptPhrases.contains (lowerS c) then
        .answer
          { response := inp.pendingAnswer.getD [], source := geminiSrc,
            log := noCalls }
      else .answer { response := cancelMsg, source := cancelledSrc, log := noCalls }
    else if strTruthy file_id then handleFileBranch deps.fileDeps
    else
      let bookAnswer := (search_in_book deps.kb question g s d).map Prod.fst
      if optTruthy bookAnswer then
        .answer
          { response := bookAnswer.getD [], source := bookSrc,
            log :=
              { matcherCalled := true, genCalled := false,
                verifierResult := none, extractorCalled := false,
                fileDeleted := false } }
      else
        let geminiAnswer :=
          get_gemini_response deps.geminiClientAvailable deps.retryOutcome
        if optTruthy geminiAnswer then
          let t := geminiAnswer.getD []
          .answer
            { response := t, source := geminiSrc,
              log :=
                { matcherCalled := true, genCalled := true,
                  verifierResult := some (check_answer_from_curriculum t deps.docs),
                  extractorCalled := false, fileDeleted := false } }
        else
          .answer
            { response := deflectionMsg deps.departmentName, source := defaultSrc,
              log :=
                { matcherCalled := true, genCalled := true,
                  verifierResult := none, extractorCalled := false,
                  fileDeleted := false } }


/-! ## Basic lemmas about the string model -/

theorem isPrefixList_refl (l : Str) : isPrefixList l l = true := by
  induction l with
  | nil => rfl
  | cons a t ih => simp [isPrefixList, ih]

theorem strContains_refl (l : Str) : strContains l l = true := by
  cases l with
  | nil => rfl
  | cons h t => simp [strContains, isPrefixList_refl]

theorem mem_dropWhileNeg {p : Char → Bool} {c : Char} :
    ∀ {l : Str}, c ∈ l → p c = false → c ∈ l.dropWhile p := by
  intro l hm hp
  induction l with
  | nil => cases hm
  | cons a t ih =>
    rw [List.dropWhile_cons]
    by_cases ha : p a = true
    · rw [if_pos ha]
      rcases List.mem_cons.mp hm with h | h
      · subst h; rw [hp] at ha; cases ha
      · exact ih h
    · rw [if_neg ha]; exact hm

theorem stripS_ne_nil {s : Str} {c : Char} (hm : c ∈ s)
    (hc : c.isWhitespace = false) : stripS s ≠ [] := by
  intro h
  have h1 : c ∈ s.dropWhile Char.isWhitespace := mem_dropWhileNeg hm hc
  have h2 : c ∈ (s.dropWhile Char.isWhitespace).reverse := List.mem_reverse.mpr h1
  have h3 : c ∈ (s.dropWhile Char.isWhitespace).reverse.dropWhile Char.isWhitespace :=
    mem_dropWhileNeg h2 hc
  have h4 : c ∈ stripS s := by unfold stripS; exact List.mem_reverse.mpr h3
  rw [h] at h4; cases h4

theorem splitP_mem_no_delim (p : Char → Bool) :
    ∀ (l : Str) (w : Str), w ∈ splitP p l → ∀ c ∈ w, p c = false := by
  intro l
  induction l with
  | nil =>
    intro w hw c hc
    simp only [splitP, List.mem_singleton] at hw
    subst hw; cases hc
  | cons a t ih =>
    intro w hw c hc
    simp only [splitP] at hw
    by_cases ha : p a = true
    · rw [if_pos ha] at hw
      rcases List.mem_cons.mp hw with h | h
      · subst h; cases hc
      · exact ih w h c hc
    · rw [if_neg ha] at hw
      cases hsp : splitP p t with
      | nil =>
        rw [hsp] at hw
        rcases List.mem_cons.mp hw with h | h
        · subst h
          rcases List.mem_cons.mp hc with h2 | h2
          · subst h2; exact Bool.not_eq_true _ ▸ eq_false_of_ne_true ha
          · cases h2
        · cases h
      | cons w0 ws =>
        rw [hsp] at hw
        rcases List.mem_cons.mp hw with h | h
        · subst h
          rcases List.mem_cons.mp hc with h2 | h2
          · subst h2; exact eq_false_of_ne_true ha
          · exact ih w0 (by rw [hsp]; exact List.mem_cons_self _ _) c h2
        · exact ih w (by rw [hsp]; exact List.mem_cons_of_mem _ h) c hc

theorem mem_joinWords_head {w : Str} {c : Char} (hc : c ∈ w) :
    ∀ rest, c ∈ joinWords (w :: rest) := by
  intro rest
  cases rest with
  | nil => simpa [joinWords] using hc
  | cons x xs =>
    simp only [joinWords]
    exact List.mem_append_left _ hc

/-! ## Lemmas about the `ORDER BY ... LIMIT 1` model -/

theorem pickFirstMinBy_eq_none (rank : BookEntry → Nat) :
    ∀ l, pickFirstMinBy rank l = none → l = [] := by
  intro l h
  cases l with
  | nil => rfl
  | cons e es =>
    simp only [pickFirstMinBy] at h
    split at h
    · cases h
    · split at h <;> cases h

theorem pickFirstMinBy_mem (rank : BookEntry → Nat) :
    ∀ (l : List BookEntry) (b : BookEntry), pickFirstMinBy rank l = some b → b ∈ l := by
  intro l
  induction l with
  | nil => intro b h; cases h
  | cons e es ih =>
    intro b h
    simp only [pickFirstMinBy] at h
    split at h
    · cases h; exact List.mem_cons_self _ _
    · rename_i b2 hrec
      split at h
      · cases h; exact List.mem_cons_self _ _
      · cases h; exact List.mem_cons_of_mem _ (ih _ hrec)

theorem pickFirstMinBy_min (rank : BookEntry → Nat) :
    ∀ (l : List BookEntry) (b : BookEntry), pickFirstMinBy rank l = some b →
      ∀ e ∈ l, rank b ≤ rank e := by
  intro l
  induction l with
  | nil => intro b h; cases h
  | cons e es ih =>
    intro b h e' he'
    simp only [pickFirstMinBy] at h
    split at h
    · rename_i hrec
      cases h
      rcases List.mem_cons.mp he' with h2 | h2
      · subst h2; exact le_refl _
      · rw [pickFirstMinBy_eq_none rank es hrec] at h2; cases h2
    · rename_i b2 hrec
      rcases List.mem_cons.mp he' with h2 | h2
      · subst h2
        split at h
        · cases h; exact le_refl _
        · rename_i hle; cases h; exact le_of_not_le hle
      · split at h
        · rename_i hle; cases h; exact le_trans hle (ih _ hrec _ h2)
        · cases h; exact ih _ hrec _ h2

theorem pickFirstMinBy_cons (rank : BookEntry → Nat) (e : BookEntry)
    (es : List BookEntry) : ∃ b, pickFirstMinBy rank (e :: es) = some b := by
  simp only [pickFirstMinBy]
  cases pickFirstMinBy rank es with
  | none => exact ⟨e, rfl⟩
  | some b2 => by_cases hle : rank e ≤ rank b2 <;> simp [hle]

theorem scopedRank_eq_one {terms : Str} {e : BookEntry}
    (h : scopedRank terms e = 1) : lowerS e.question = terms := by
  by_contra hne
  unfold scopedRank at h
  rw [if_neg hne] at h
  split at h
  · omega
  · split at h <;> omega

theorem one_le_scopedRank (terms : Str) (e : BookEntry) : 1 ≤ scopedRank terms e := by
  unfold scopedRank
  split
  · omega
  · split
    · omega
    · split <;> omega

/-! ## Claim theorems: knowledge-base matcher and verifier -/

/-- C5: in the scoped pass, for every knowledge base containing an entry whose
question text equals the normalized (trimmed, lowercased) query exactly and
another entry that merely contains the query as a substring, both within the
full (grade, semester, department) scope, `search_in_book` returns the
exact-equality entry's answer. -/
theorem c5_scoped_exact_precedence
    (kb : List BookEntry) (question : Str) (g s d : Nat) (e1 e2 : BookEntry)
    (he1mem : e1 ∈ kb) (he2mem : e2 ∈ kb)
    (hscope1 : e1.gradeId = g ∧ e1.semesterId = s ∧ e1.departmentId = d)
    (hscope2 : e2.gradeId = g ∧ e2.semesterId = s ∧ e2.departmentId = d)
    (hexact : lowerS e1.question = lowerS (stripS question))
    (hsub : strContains (lowerS e2.question) (lowerS (stripS question)) = true)
    (hne : lowerS e2.question ≠ lowerS (stripS question))
    (huniq : ∀ e ∈ kb, lowerS e.question = lowerS (stripS question) → e = e1) :
    search_in_book kb question g s d = some (e1.answer, bookKind) := by
  have hcand : scopedCandidate (lowerS (stripS question)) g s d e1 = true := by
    simp [scopedCandidate, hscope1.1, hscope1.2.1, hscope1.2.2, likeContains,
      hexact, strContains_refl]
  have hmemF : e1 ∈ kb.filter (scopedCandidate (lowerS (stripS question)) g s d) :=
    List.mem_filter.mpr ⟨he1mem, hcand⟩
  obtain ⟨x, xs, hxs⟩ :=
    List.exists_cons_of_ne_nil (List.ne_nil_of_mem hmemF)
  obtain ⟨b, hb⟩ := hxs ▸ pickFirstMinBy_cons (scopedRank (lowerS (stripS question))) x xs
  have hble : scopedRank (lowerS (stripS question)) b ≤ 1 := by
    have := pickFirstMinBy_min _ _ _ hb e1 hmemF
    unfold scopedRank at this ⊢
    rw [if_pos hexact] at this
    exact this
  have hbq : lowerS b.question = lowerS (stripS question) :=
    scopedRank_eq_one (le_antisymm hble (one_le_scopedRank _ _))
  have hbkb : b ∈ kb := (List.mem_filter.mp (pickFirstMinBy_mem _ _ _ hb)).1
  have hbe1 : b = e1 := huniq b hbkb hbq
  subst hbe1
  unfold search_in_book
  simp only [hb]

/-- C7: with no active curriculum document in context, the verifier returns
`false` even when the answer's raw length exceeds the 800-character fallback
threshold: the document-presence check precedes the length heuristic. -/
theorem c7_no_docs_overrides_length (ans : Str) (hlen : 800 < ans.length) :
    check_answer_from_curriculum ans [] = false := by
  unfold check_answer_from_curriculum
  by_cases h : strTruthy ans <;> simp [h]

/-- C9: any answer whose normalized (lowercased, trimmed) text contains a
phrase of the fixed rejection set verifies as `false`, whatever the documents
and whatever the answer's length. -/
theorem c9_rejection_forces_false (ans : Str) (docs : List Str)
    (hrej : rejection_phrases.any (fun p => strContains (stripS (lowerS ans)) p) = true) :
    check_answer_from_curriculum ans docs = false := by
  unfold check_answer_from_curriculum
  by_cases h1 : strTruthy ans
  · by_cases h2 : docs.isEmpty <;> simp [h1, h2, hrej]
  · simp [h1]

/-! ## Lemmas for the phrase-overlap threshold -/

theorem geminiPhrases_ne_nil {clean ph : Str} (h : ph ∈ geminiPhrases clean) :
    ph ≠ [] := by
  unfold geminiPhrases at h
  rw [List.mem_flatten] at h
  obtain ⟨l, hl, hph⟩ := h
  rw [List.mem_map] at hl
  obtain ⟨wsl, hwsl, rfl⟩ := hl
  rw [List.mem_map] at hwsl
  obtain ⟨sentence, hsent, rfl⟩ := hwsl
  unfold phrasesOfSentence at hph
  by_cases h4 : 4 ≤ (pyWords sentence).length
  case neg => rw [if_neg h4] at hph; cases hph
  rw [if_pos h4] at hph
  rw [List.mem_filterMap] at hph
  obtain ⟨i, hi, heq⟩ := hph
  rw [List.mem_range] at hi
  by_cases hlen :
      15 < (joinWords (((pyWords sentence).drop i).take
        (min 6 ((pyWords sentence).length - i)))).length
  case neg => rw [if_neg hlen] at heq; cases heq
  rw [if_pos hlen] at heq
  have heq2 := Option.some.inj heq
  have hsublen :
      0 < (((pyWords sentence).drop i).take
        (min 6 ((pyWords sentence).length - i))).length := by
    rw [List.length_take, List.length_drop]
    have h6 : 0 < min 6 ((pyWords sentence).length - i) := by
      rw [lt_min_iff]; omega
    rw [lt_min_iff]; omega
  obtain ⟨w, rest, hsub⟩ :=
    List.exists_cons_of_ne_nil (List.ne_nil_of_length_pos hsublen)
  have hwmem : w ∈ pyWords sentence := by
    have hw1 : w ∈ ((pyWords sentence).drop i).take
        (min 6 ((pyWords sentence).length - i)) := by
      rw [hsub]; exact List.mem_cons_self _ _
    exact List.drop_subset _ _ (List.take_subset _ _ hw1)
  have hwprops := List.mem_filter.mp hwmem
  obtain ⟨c, w', rfl⟩ :
      ∃ c w', w = c :: w' := by
    cases w with
    | nil => simp at hwprops
    | cons c w' => exact ⟨c, w', rfl⟩
  have hcnows : c.isWhitespace = false :=
    splitP_mem_no_delim Char.isWhitespace sentence _ hwprops.1 c
      (List.mem_cons_self _ _)
  have hcmem : c ∈ joinWords (((pyWords sentence).drop i).take
      (min 6 ((pyWords sentence).length - i))) := by
    rw [hsub]; exact mem_joinWords_head (List.mem_cons_self _ _) rest
  rw [← heq2]
  exact stripS_ne_nil hcmem hcnows

theorem phraseMatches_nil (clean : Str) : phraseMatches clean [] = 0 := by
  unfold phraseMatches
  rw [List.length_eq_zero, List.filter_eq_nil_iff]
  intro p hp
  have hne := geminiPhrases_ne_nil hp
  simp [strContains, List.isEmpty_iff, hne]

theorem phraseMatches_le_total (clean t : Str) :
    phraseMatches clean t ≤ (geminiPhrases clean).length :=
  List.length_filter_le _ _

/-- C8: for an answer that passes the rejection check, if for some fetched
curriculum document the number of generated phrases found verbatim in the
(normalized) document text is at least 2, or the ratio of matched to total
generated phrases is at least 0.15, the verifier returns `true` — in
particular 2 matches suffice even when the ratio is below 15 %. -/
theorem c8_phrase_overlap_threshold (ans : Str) (docs : List Str) (doc : Str)
    (hdoc : doc ∈ docs) (hans : ans ≠ [])
    (hrej : rejection_phrases.any
      (fun p => strContains (stripS (lowerS ans)) p) = false)
    (hcond : 2 ≤ phraseMatches (stripS (lowerS ans)) (pyDocNorm doc) ∨
      (0 < (geminiPhrases (stripS (lowerS ans))).length ∧
        3 * (geminiPhrases (stripS (lowerS ans))).length ≤
          20 * phraseMatches (stripS (lowerS ans)) (pyDocNorm doc))) :
    check_answer_from_curriculum ans docs = true := by
  have hm1 : 1 ≤ phraseMatches (stripS (lowerS ans)) (pyDocNorm doc) := by
    rcases hcond with h | ⟨hpos, hratio⟩
    · omega
    · by_contra h0
      omega
  have htne : pyDocNorm doc ≠ [] := by
    intro h0
    rw [h0, phraseMatches_nil] at hm1
    omega
  have hdv : docVerifies (stripS (lowerS ans)) doc = true := by
    unfold docVerifies
    rw [if_neg (by simpa [List.isEmpty_iff] using htne)]
    have htot : 0 < (geminiPhrases (stripS (lowerS ans))).length := by
      rcases hcond with h | ⟨hpos, _⟩
      · have := phraseMatches_le_total (stripS (lowerS ans)) (pyDocNorm doc)
        omega
      · exact hpos
    rcases hcond with h | ⟨_, hratio⟩
    · simp [htot, h]
    · simp [htot, hratio]
  unfold check_answer_from_curriculum
  have h1 : strTruthy ans = true := by simp [strTruthy, List.isEmpty_iff, hans]
  have h2 : docs.isEmpty = false := by
    simp [List.isEmpty_iff, List.ne_nil_of_mem hdoc]
  have hany : docs.any (fun d => docVerifies (stripS (lowerS ans)) d) = true :=
    List.any_eq_true.mpr ⟨doc, hdoc, hdv⟩
  simp [h1, h2, hrej, hany]

/-! ## Lemmas about the retry loop -/

theorem isTransientMsg_timeoutMsg : isTransientMsg timeoutMsg = true := by decide

theorem mem_callIdxs {tr : List RetryEv} {j : Nat} :
    j ∈ callIdxs tr ↔ RetryEv.call j ∈ tr := by
  induction tr with
  | nil => simp [callIdxs]
  | cons ev t ih =>
    cases ev with
    | call k => simp [callIdxs, List.filterMap_cons, ih.symm]
    | sleep d => simp [callIdxs, List.filterMap_cons, ih.symm]

/-- Once the wall clock has passed the timeout at every remaining iteration,
the loop performs no further underlying call, and — while iterations remain —
its result is the raised timeout error. -/
theorem retryGo_timeout_region (env : RetryEnv) (maxRetries : Nat) (timeout : ℚ) :
    ∀ (fuel attempt : Nat) (delay : ℚ),
      (∀ j, attempt ≤ j → timeout < env.elapsed j) →
      (∀ j, RetryEv.call j ∉ (retryGo env maxRetries timeout fuel attempt delay).2) ∧
        (attempt + fuel = maxRetries → 0 < fuel →
          (retryGo env maxRetries timeout fuel attempt delay).1 =
            RetryResult.raised timeoutMsg) := by
  intro fuel
  induction fuel with
  | zero =>
    intro attempt delay hj
    refine ⟨fun j hmem => ?_, fun _ h0 => absurd h0 (by omega)⟩
    simp [retryGo] at hmem
  | succ fuel ih =>
    intro attempt delay hj
    have hdet : timeout < env.elapsed attempt := hj attempt (le_refl _)
    by_cases hlast : attempt = maxRetries - 1
    · subst hlast
      constructor
      · intro j hmem
        simp [retryGo, if_pos hdet, isTransientMsg_timeoutMsg] at hmem
      · intro _ _
        simp [retryGo, if_pos hdet, isTransientMsg_timeoutMsg]
    · have ihspec := ih (attempt + 1) (ratMin (delay * (3 / 2)) 5)
        (fun j hja => hj j (by omega))
      constructor
      · intro j hmem
        simp only [retryGo, if_pos hdet, isTransientMsg_timeoutMsg, if_true,
          if_neg hlast, List.nil_append, List.mem_cons] at hmem
        rcases hmem with h | h
        · cases h
        · exact ihspec.1 j h
      · intro hsum h0
        simp only [retryGo, if_pos hdet, isTransientMsg_timeoutMsg, if_true,
          if_neg hlast]
        exact ihspec.2 (by omega) (by omega)

/-- Any underlying call performed by the loop happens at an iteration whose
clock reading was still within the timeout. -/
theorem retryGo_calls_within_timeout (env : RetryEnv) (maxRetries : Nat)
    (timeout : ℚ) :
    ∀ (fuel attempt : Nat) (delay : ℚ) (j : Nat),
      RetryEv.call j ∈ (retryGo env maxRetries timeout fuel attempt delay).2 →
      ¬timeout < env.elapsed j := by
  intro fuel
  induction fuel with
  | zero => intro attempt delay j hj; simp [retryGo] at hj
  | succ fuel ih =>
    intro attempt delay j hj
    by_cases hdet : timeout < env.elapsed attempt
    · by_cases hlast : attempt = maxRetries - 1
      · subst hlast
        simp [retryGo, if_pos hdet, isTransientMsg_timeoutMsg] at hj
      · simp only [retryGo, if_pos hdet, isTransientMsg_timeoutMsg, if_true,
          if_neg hlast, List.nil_append, List.mem_cons] at hj
        rcases hj with h | h
        · cases h
        · exact ih (attempt + 1) _ j h
    · cases hcall : env.callResult attempt with
      | ok v =>
        simp only [retryGo, if_neg hdet, hcall, List.mem_singleton] at hj
        cases hj
        exact hdet
      | error m =>
        by_cases htr : isTransientMsg m = true
        · by_cases hlast : attempt = maxRetries - 1
          · subst hlast
            simp only [retryGo, if_neg hdet, hcall, htr, if_true, if_pos rfl,
              List.mem_singleton] at hj
            cases hj
            exact hdet
          · simp only [retryGo, if_neg hdet, hcall, htr, if_true,
              if_neg hlast, List.singleton_append, List.mem_cons] at hj
            rcases hj with h | h
            · cases h; exact hdet
            · rcases h with h | h
              · cases h
              · exact ih (attempt + 1) _ j h
        · simp only [retryGo, if_neg hdet, hcall,
            eq_false_of_ne_true htr, if_false, List.mem_singleton] at hj
          cases hj with
          | head => exact hdet
          | tail _ h => cases h

/-- If every iteration before `k` fails with a transient error inside the
time budget, and the clock is past the timeout from iteration `k` on, the
loop ends by raising the timeout error. -/
theorem retryGo_reaches_timeout (env : RetryEnv) (maxRetries : Nat)
    (timeout : ℚ) (k : Nat) (hkM : k < maxRetries)
    (hafter : ∀ j, k ≤ j → timeout < env.elapsed j) :
    ∀ (fuel attempt : Nat) (delay : ℚ),
      attempt + fuel = maxRetries → attempt ≤ k →
      (∀ i, attempt ≤ i → i < k →
        ¬timeout < env.elapsed i ∧
          ∃ m, env.callResult i = Except.error m ∧ isTransientMsg m = true) →
      (retryGo env maxRetries timeout fuel attempt delay).1 =
        RetryResult.raised timeoutMsg := by
  intro fuel
  induction fuel with
  | zero => intro attempt delay hsum hak hpre; omega
  | succ fuel ih =>
    intro attempt delay hsum hak hpre
    by_cases hlt : attempt < k
    · obtain ⟨hnd, m, hcallm, htrm⟩ := hpre attempt (le_refl _) hlt
      have hlast : attempt ≠ maxRetries - 1 := by omega
      simp only [retryGo, if_neg hnd, hcallm, htrm, if_true, if_neg hlast]
      exact ih (attempt + 1) (ratMin (delay * (3 / 2)) 5) (by omega) (by omega)
        (fun i hi1 hi2 => hpre i (by omega) hi2)
    · have hak' : attempt = k := by omega
      subst hak'
      exact (retryGo_timeout_region env maxRetries timeout (fuel + 1) attempt
        delay (fun j hja => hafter j hja)).2 hsum (by omega)

/-- C4: if the underlying function always raises a transient-classified error
and the wall-clock timeout never elapses, `gemini_with_retry` (with the
source's arguments `max_retries = 3`, `timeout = 60`) calls the function
exactly 3 times — at iterations 0, 1, 2 — and then raises a failure; the two
backoff waits are non-decreasing and each lies within `[1, 5 + 0.5]`. -/
theorem c4_transient_exhausts_budget (env : RetryEnv) (msg : Nat → Str)
    (hcall : ∀ i, env.callResult i = Except.error (msg i))
    (htr : ∀ i, isTransientMsg (msg i) = true)
    (hel : ∀ i, env.elapsed i ≤ 60)
    (hjlo : ∀ i, 0 ≤ env.jitter i) (hjhi : ∀ i, env.jitter i ≤ 1 / 2) :
    callIdxs (gemini_with_retry env 3 60).2 = [0, 1, 2] ∧
      (gemini_with_retry env 3 60).1 = RetryResult.raised (msg 2) ∧
      sleepsOf (gemini_with_retry env 3 60).2 =
        [ratMin (1 + env.jitter 0) 5, ratMin (3 / 2 + env.jitter 1) 5] ∧
      List.Chain' (· ≤ ·) (sleepsOf (gemini_with_retry env 3 60).2) ∧
      ∀ q ∈ sleepsOf (gemini_with_retry env 3 60).2, 1 ≤ q ∧ q ≤ 5 + 1 / 2 := by
  have hd : ∀ i, ¬((60 : ℚ) < env.elapsed i) := fun i => not_lt.mpr (hel i)
  have hdelay : ratMin ((1 : ℚ) * (3 / 2)) 5 = 3 / 2 := by
    rw [ratMin_eq, min_eq_left (by norm_num)]; norm_num
  have hrun : gemini_with_retry env 3 60 =
      (RetryResult.raised (msg 2),
        [RetryEv.call 0, RetryEv.sleep (ratMin (1 + env.jitter 0) 5),
          RetryEv.call 1, RetryEv.sleep (ratMin (3 / 2 + env.jitter 1) 5),
          RetryEv.call 2]) := by
    simp only [gemini_with_retry, retryGo, hd, if_false, hcall, htr, if_true,
      hdelay]
    norm_num
  have hs0 : (1 : ℚ) ≤ ratMin (1 + env.jitter 0) 5 := by
    rw [ratMin_eq]; exact le_min (by linarith [hjlo 0]) (by norm_num)
  have hs1 : (1 : ℚ) ≤ ratMin (3 / 2 + env.jitter 1) 5 := by
    rw [ratMin_eq]; exact le_min (by linarith [hjlo 1]) (by norm_num)
  have hmono : ratMin (1 + env.jitter 0) 5 ≤ ratMin (3 / 2 + env.jitter 1) 5 := by
    rw [ratMin_eq, ratMin_eq]
    exact le_min ((min_le_left _ _).trans (by linarith [hjhi 0, hjlo 1]))
      (min_le_right _ _)
  refine ⟨?_, ?_, ?_, ?_, ?_⟩
  · rw [hrun]; rfl
  · rw [hrun]
  · rw [hrun]; rfl
  · rw [hrun]
    simp only [sleepsOf, List.filterMap_cons, List.filterMap_nil]
    exact List.chain'_cons.mpr ⟨hmono, List.chain'_singleton _⟩
  · rw [hrun]
    intro q hq
    simp only [sleepsOf, List.filterMap_cons, List.filterMap_nil,
      List.mem_cons, List.not_mem_nil, or_false] at hq
    rcases hq with rfl | rfl
    · exact ⟨hs0, by rw [ratMin_eq]; exact (min_le_right _ _).trans (by norm_num)⟩
    · exact ⟨hs1, by rw [ratMin_eq]; exact (min_le_right _ _).trans (by norm_num)⟩

/-- C3 (amended): once the wall clock passes the 60-unit timeout, no further
underlying call is made; and if every earlier iteration failed with a
transient error inside the time budget, the wrapper ultimately aborts by
raising the timeout error.  (It does not abort immediately: the timeout
error's own text matches the transient classifier, so backoff waits still
occur between the remaining iterations — see the counterexample.) -/
theorem c3_amended_timeout_supersedes_calls (env : RetryEnv) (k : Nat)
    (hk : k < 3) (hdet : 60 < env.elapsed k)
    (hmono : ∀ i j, i ≤ j → env.elapsed i ≤ env.elapsed j) :
    (∀ j, RetryEv.call j ∈ (gemini_with_retry env 3 60).2 → j < k) ∧
      ((∀ i, i < k →
          env.elapsed i ≤ 60 ∧
            ∃ m, env.callResult i = Except.error m ∧ isTransientMsg m = true) →
        (gemini_with_retry env 3 60).1 = RetryResult.raised timeoutMsg) := by
  have hafter : ∀ j, k ≤ j → (60 : ℚ) < env.elapsed j :=
    fun j hkj => lt_of_lt_of_le hdet (hmono k j hkj)
  constructor
  · intro j hmem
    by_contra hge
    push_neg at hge
    exact retryGo_calls_within_timeout env 3 60 3 0 1 j hmem (hafter j hge)
  · intro hpre
    exact retryGo_reaches_timeout env 3 60 k hk hafter 3 0 1 rfl (by omega)
      (fun i h0 hik =>
        ⟨not_lt.mpr (hpre i hik).1, (hpre i hik).2⟩)

/-! ## Claim theorems: pipeline orchestration -/

theorem strTruthy_of_ne_nil {s : Str} (h : s ≠ []) : strTruthy s = true := by
  simp [strTruthy, List.isEmpty_iff, h]

/-- C6: with a truthy pending answer and a truthy confirmation, the handler
resolves in the confirmation branch without calling the matcher or the
generative client: an accept-phrase confirmation returns the pending answer
with source `gemini`, and any other confirmation returns the fixed
cancellation message with the source `cancelled`, distinct from every other
source tag. -/
theorem c6_pending_confirmation (deps : ChatDeps) (inp : ChatInput)
    (g s d : Nat) (c p : Str)
    (huser : stripS inp.username ≠ [])
    (hqf : ¬(stripS inp.message = [] ∧ stripS inp.fileIdRaw = []))
    (hconf : inp.confirmAnswer = some c) (hc : c ≠ [])
    (hpend : inp.pendingAnswer = some p) (hp : p ≠ []) :
    handle_chat deps inp g s d =
      ChatOutcome.answer
        { response := if acceptPhrases.contains (lowerS c) then p else cancelMsg,
          source :=
            if acceptPhrases.contains (lowerS c) then geminiSrc else cancelledSrc,
          log := noCalls } ∧
      noCalls.matcherCalled = false ∧ noCalls.genCalled = false ∧
      cancelledSrc ∉ [bookSrc, geminiSrc, geminiVisionSrc, errorSrc, defaultSrc] := by
  have h1 : strTruthy (stripS inp.username) = true := strTruthy_of_ne_nil huser
  have h2 : (!strTruthy (stripS inp.message) &&
      !strTruthy (stripS inp.fileIdRaw)) = false := by
    by_cases hq : stripS inp.message = []
    · have hf : stripS inp.fileIdRaw ≠ [] := fun hf => hqf ⟨hq, hf⟩
      simp [strTruthy_of_ne_nil hf]
    · simp [strTruthy_of_ne_nil hq]
  have h3 : optTruthy inp.confirmAnswer = true := by
    rw [hconf]; exact strTruthy_of_ne_nil hc
  have h4 : optTruthy inp.pendingAnswer = true := by
    rw [hpend]; exact strTruthy_of_ne_nil hp
  refine ⟨?_, rfl, rfl, by decide⟩
  simp only [handle_chat, h1, h2, hconf, hpend, optTruthy,
    strTruthy_of_ne_nil hc, strTruthy_of_ne_nil hp, Option.getD_some,
    Bool.not_true, Bool.and_self, Bool.false_eq_true, if_false, if_true,
    and_self, ite_true]
  by_cases hacc : lowerS c ∈ acceptPhrases
  · simp [hacc]
  · simp [hacc]

/-- C10: when a request carries both a truthy pending-answer/confirmation
pair and a truthy file reference, the confirmation branch preempts the file
branch: the content extractor is not invoked and the file is neither
processed nor deleted. -/
theorem c10_confirmation_preempts_file (deps : ChatDeps) (inp : ChatInput)
    (g s d : Nat) (c p : Str)
    (huser : stripS inp.username ≠ [])
    (hfile : stripS inp.fileIdRaw ≠ [])
    (hconf : inp.confirmAnswer = some c) (hc : c ≠ [])
    (hpend : inp.pendingAnswer = some p) (hp : p ≠ []) :
    handle_chat deps inp g s d =
      ChatOutcome.answer
        { response := if acceptPhrases.contains (lowerS c) then p else cancelMsg,
          source :=
            if acceptPhrases.contains (lowerS c) then geminiSrc else cancelledSrc,
          log := noCalls } ∧
      noCalls.extractorCalled = false ∧ noCalls.fileDeleted = false := by
  have h1 : strTruthy (stripS inp.username) = true := strTruthy_of_ne_nil huser
  have h2 : (!strTruthy (stripS inp.message) &&
      !strTruthy (stripS inp.fileIdRaw)) = false := by
    simp [strTruthy_of_ne_nil hfile]
  refine ⟨?_, rfl, rfl⟩
  simp only [handle_chat, h1, h2, hconf, hpend, optTruthy,
    strTruthy_of_ne_nil hc, strTruthy_of_ne_nil hp, Option.getD_some,
    Bool.not_true, Bool.and_self, Bool.false_eq_true, if_false, if_true,
    and_self, ite_true]
  by_cases hacc : lowerS c ∈ acceptPhrases
  · simp [hacc]
  · simp [hacc]

/-- The generative-text leg of `handle_chat`: with no confirmation preempt,
no file, and no knowledge-base match, a truthy generative answer `t` is
delivered with source `gemini` and the verifier runs on it. -/
theorem handle_chat_generative_text (deps : ChatDeps) (inp : ChatInput)
    (g s d : Nat) (t : Str)
    (huser : stripS inp.username ≠ [])
    (hq : stripS inp.message ≠ [])
    (hnoconf : (optTruthy inp.confirmAnswer && optTruthy inp.pendingAnswer) = false)
    (hnofile : stripS inp.fileIdRaw = [])
    (hkb : optTruthy
      ((search_in_book deps.kb (stripS inp.message) g s d).map Prod.fst) = false)
    (hgen : get_gemini_response deps.geminiClientAvailable deps.retryOutcome =
      some t)
    (ht : t ≠ []) :
    handle_chat deps inp g s d =
      ChatOutcome.answer
        { response := t, source := geminiSrc,
          log :=
            { matcherCalled := true, genCalled := true,
              verifierResult :=
                some (check_answer_from_curriculum t deps.docs),
              extractorCalled := false, fileDeleted := false } } := by
  have h1 : strTruthy (stripS inp.username) = true := strTruthy_of_ne_nil huser
  have h2 : (!strTruthy (stripS inp.message) &&
      !strTruthy (stripS inp.fileIdRaw)) = false := by
    simp [strTruthy_of_ne_nil hq]
  have h5 : strTruthy (stripS inp.fileIdRaw) = false := by rw [hnofile]; rfl
  have h6 : optTruthy (some t) = true := strTruthy_of_ne_nil ht
  simp only [handle_chat, h1, h2, hnoconf, h5, hkb, hgen, h6,
    Option.getD_some, Bool.not_true, Bool.false_eq_true, if_false, if_true]
  simp [strTruthy_of_ne_nil hq]

/-- C1 (amended): when the generative stage returns (truthy) text, the
pipeline delivers that text unchanged and runs the Curriculum Grounding
Verifier, but the verifier's boolean is not used for the provenance tag: the
source is `gemini` whether the verifier returned true or false (the code has
no `generative_unverified` tag — see the counterexample). -/
theorem c1_amended_verifier_observational (deps : ChatDeps) (inp : ChatInput)
    (g s d : Nat) (t : Str)
    (huser : stripS inp.username ≠ [])
    (hq : stripS inp.message ≠ [])
    (hnoconf : (optTruthy inp.confirmAnswer && optTruthy inp.pendingAnswer) = false)
    (hnofile : stripS inp.fileIdRaw = [])
    (hkb : optTruthy
      ((search_in_book deps.kb (stripS inp.message) g s d).map Prod.fst) = false)
    (hgen : get_gemini_response deps.geminiClientAvailable deps.retryOutcome =
      some t)
    (ht : t ≠ []) :
    handle_chat deps inp g s d =
      ChatOutcome.answer
        { response := t, source := geminiSrc,
          log :=
            { matcherCalled := true, genCalled := true,
              verifierResult :=
                some (check_answer_from_curriculum t deps.docs),
              extractorCalled := false, fileDeleted := false } } :=
  handle_chat_generative_text deps inp g s d t huser hq hnoconf hnofile hkb
    hgen ht

/-- C2 (amended): with no knowledge-base match and an available generative
client whose underlying call raises a non-transient (fatal) error on its
first invocation, the error is not propagated: `gemini_with_retry` re-raises
it immediately, `get_gemini_response` converts it into the fixed apology
string, and the handler returns that apology — with the source `gemini`, not
the deflection source `default` (see the counterexample). -/
theorem c2_amended_fatal_error_apology (deps : ChatDeps) (inp : ChatInput)
    (g s d : Nat) (env : RetryEnv) (m : Str)
    (huser : stripS inp.username ≠ [])
    (hq : stripS inp.message ≠ [])
    (hnoconf : (optTruthy inp.confirmAnswer && optTruthy inp.pendingAnswer) = false)
    (hnofile : stripS inp.fileIdRaw = [])
    (hkb : optTruthy
      ((search_in_book deps.kb (stripS inp.message) g s d).map Prod.fst) = false)
    (hclient : deps.geminiClientAvailable = true)
    (hlink : deps.retryOutcome = retryToOutcome (gemini_with_retry env 3 60).1)
    (hfst : env.callResult 0 = Except.error m)
    (hfatal : isTransientMsg m = false)
    (htime : env.elapsed 0 ≤ 60) :
    handle_chat deps inp g s d =
      ChatOutcome.answer
        { response := geminiErrorMsg, source := geminiSrc,
          log :=
            { matcherCalled := true, genCalled := true,
              verifierResult :=
                some (check_answer_from_curriculum geminiErrorMsg deps.docs),
              extractorCalled := false, fileDeleted := false } } := by
  have hraise : (gemini_with_retry env 3 60).1 = RetryResult.raised m := by
    simp only [gemini_with_retry, retryGo, if_neg (not_lt.mpr htime), hfst,
      hfatal, Bool.false_eq_true, if_false]
  have hgen : get_gemini_response deps.geminiClientAvailable deps.retryOutcome =
      some geminiErrorMsg := by
    rw [hclient, hlink, hraise]
    rfl
  exact handle_chat_generative_text deps inp g s d geminiErrorMsg huser hq
    hnoconf hnofile hkb hgen (by decide)

/-! ## Concrete fixtures -/

def fdUnused : FileDeps :=
  { securedName := [], pathInUploadDir := false, fileExists := false,
    hasAnalyzeDocument := false, hasAnalyzeAudio := false,
    analyzeImageResult := Except.error [],
    analyzeDocumentResult := Except.error [],
    analyzeAudioResult := Except.error [], fileStillExists := false }

def sampleAnswer : Str := ofStr "Alpha beta gamma delta epsilon zeta eta theta."

def sampleDoc : Str := ofStr "alpha beta gamma delta epsilon zeta eta theta"

def inpPlain : ChatInput :=
  { username := ofStr "user", message := ofStr "question",
    fileIdRaw := [], confirmAnswer := none, pendingAnswer := none }

/-- A request environment whose generative call returns `sampleAnswer`. -/
def depsGenOk (docs : List Str) : ChatDeps :=
  { kb := [], geminiClientAvailable := true,
    retryOutcome := Except.ok (some sampleAnswer), docs := docs,
    departmentName := unspecifiedName, fileDeps := fdUnused }

/-- An underlying call that always raises a non-transient error. -/
def envFatal : RetryEnv :=
  { callResult := fun _ => Except.error (ofStr "401 unauthorized"),
    elapsed := fun _ => 0, jitter := fun _ => 0 }

def depsFatal : ChatDeps :=
  { kb := [], geminiClientAvailable := true,
    retryOutcome := retryToOutcome (gemini_with_retry envFatal 3 60).1,
    docs := [], departmentName := unspecifiedName, fileDeps := fdUnused }

/-- A clock that passes the timeout after the first iteration. -/
def envTimeoutMid : RetryEnv :=
  { callResult := fun _ => Except.error (ofStr "503"),
    elapsed := fun k => if k = 0 then 0 else 61, jitter := fun _ => 0 }

/-- A clock already past the timeout at the first iteration. -/
def envTimeoutNow : RetryEnv :=
  { callResult := fun _ => Except.error (ofStr "503"),
    elapsed := fun _ => 100, jitter := fun _ => 0 }

/-- An underlying call that always raises a transient error, within budget. -/
def envAlways503 : RetryEnv :=
  { callResult := fun _ => Except.error (ofStr "503"),
    elapsed := fun _ => 0, jitter := fun _ => 0 }

def entryExact : BookEntry :=
  { question := ofStr "FOO bar", answer := ofStr "exact-answer",
    keywords := [], gradeId := 1, semesterId := 2, departmentId := 3 }

def entrySub : BookEntry :=
  { question := ofStr "xx foo bar yy", answer := ofStr "sub-answer",
    keywords := [], gradeId := 1, semesterId := 2, departmentId := 3 }

/-- Dependencies that the confirmation branch never touches. -/
def depsUnused : ChatDeps :=
  { kb := [], geminiClientAvailable := false, retryOutcome := Except.error [],
    docs := [], departmentName := unspecifiedName, fileDeps := fdUnused }

def inpAccept : ChatInput :=
  { username := ofStr "user", message := ofStr "question", fileIdRaw := [],
    confirmAnswer := some (ofStr "yes"),
    pendingAnswer := some (ofStr "the pending answer") }

def inpCancel : ChatInput := { inpAccept with confirmAnswer := some (ofStr "no") }

def inpConfirmFile : ChatInput := { inpAccept with fileIdRaw := ofStr "notes.pdf" }

def rejAnswer : Str := ofStr "عذراً هذا السؤال غير موجود"

/-! ## Counterexamples and witnesses -/

/-- C1 counterexample: two runs identical except for the curriculum
documents — in the first the verifier returns `true`, in the second `false` —
both deliver the same text with the same source tag `gemini`.  The code never
produces a distinct `generative_unverified` tag, so the claimed use of the
verifier's boolean for provenance does not exist. -/
theorem c1_counterexample :
    check_answer_from_curriculum sampleAnswer [sampleDoc] = true ∧
    check_answer_from_curriculum sampleAnswer [] = false ∧
    handle_chat (depsGenOk [sampleDoc]) inpPlain 1 2 3 =
      ChatOutcome.answer
        { response := sampleAnswer, source := geminiSrc,
          log :=
            { matcherCalled := true, genCalled := true,
              verifierResult := some true, extractorCalled := false,
              fileDeleted := false } } ∧
    handle_chat (depsGenOk []) inpPlain 1 2 3 =
      ChatOutcome.answer
        { response := sampleAnswer, source := geminiSrc,
          log :=
            { matcherCalled := true, genCalled := true,
              verifierResult := some false, extractorCalled := false,
              fileDeleted := false } } := by decide

theorem c1_witness :
    handle_chat (depsGenOk [sampleDoc]) inpPlain 1 2 3 =
      ChatOutcome.answer
        { response := sampleAnswer, source := geminiSrc,
          log :=
            { matcherCalled := true, genCalled := true,
              verifierResult :=
                some (check_answer_from_curriculum sampleAnswer [sampleDoc]),
              extractorCalled := false, fileDeleted := false } } :=
  c1_amended_verifier_observational (depsGenOk [sampleDoc]) inpPlain 1 2 3
    sampleAnswer (by decide) (by decide) rfl rfl rfl rfl (by decide)

/-- C2 counterexample: with an empty knowledge base and a generative call
that raises a fatal error, the handler returns the fixed apology — but with
the source tag `gemini` (the generative provenance), not the deflection tag
`default`.  The claimed provenance `deflection` is wrong; only the apology
text and the non-propagation hold. -/
theorem c2_counterexample :
    handle_chat depsFatal inpPlain 1 2 3 =
      ChatOutcome.answer
        { response := geminiErrorMsg, source := geminiSrc,
          log :=
            { matcherCalled := true, genCalled := true,
              verifierResult := some false, extractorCalled := false,
              fileDeleted := false } } ∧
    geminiSrc ≠ defaultSrc := by decide

theorem c2_witness :
    handle_chat depsFatal inpPlain 1 2 3 =
      ChatOutcome.answer
        { response := geminiErrorMsg, source := geminiSrc,
          log :=
            { matcherCalled := true, genCalled := true,
              verifierResult :=
                some (check_answer_from_curriculum geminiErrorMsg []),
              extractorCalled := false, fileDeleted := false } } :=
  c2_amended_fatal_error_apology depsFatal inpPlain 1 2 3 envFatal
    (ofStr "401 unauthorized") (by decide) (by decide) rfl rfl rfl rfl rfl rfl
    (by decide) (by norm_num [envFatal])

/-- C3 counterexample: with the clock past the 60-unit timeout from
iteration 1 on, the run still performs a backoff wait of `3/2` at iteration 1
— after the timeout was detected there — and aborts only at iteration 2, the
last of the budget.  This refutes the claim that, once the timeout elapses,
the call aborts with no further backoff wait even with attempts remaining. -/
theorem c3_counterexample :
    (60 : ℚ) < envTimeoutMid.elapsed 1 ∧
    gemini_with_retry envTimeoutMid 3 60 =
      (RetryResult.raised timeoutMsg,
        [RetryEv.call 0, RetryEv.sleep 1, RetryEv.sleep (3 / 2)]) := by
  refine ⟨by norm_num [envTimeoutMid], ?_⟩
  have h0 : ¬((60 : ℚ) < envTimeoutMid.elapsed 0) := by norm_num [envTimeoutMid]
  have h1 : (60 : ℚ) < envTimeoutMid.elapsed 1 := by norm_num [envTimeoutMid]
  have h2 : (60 : ℚ) < envTimeoutMid.elapsed 2 := by norm_num [envTimeoutMid]
  have hc : envTimeoutMid.callResult 0 = Except.error (ofStr "503") := rfl
  have ht503 : isTransientMsg (ofStr "503") = true := by decide
  simp only [gemini_with_retry, retryGo, if_neg h0, if_pos h1, if_pos h2, hc,
    ht503, isTransientMsg_timeoutMsg, if_true, List.nil_append]
  norm_num [envTimeoutMid, ratMin]

theorem c3_witness :
    (gemini_with_retry envTimeoutNow 3 60).1 = RetryResult.raised timeoutMsg ∧
    RetryEv.call 0 ∉ (gemini_with_retry envTimeoutNow 3 60).2 := by
  have h := c3_amended_timeout_supersedes_calls envTimeoutNow 0 (by decide)
    (by norm_num [envTimeoutNow]) (fun i j hij => le_refl _)
  exact ⟨h.2 (fun i hi => absurd hi (Nat.not_lt_zero i)),
    fun hmem => absurd (h.1 0 hmem) (by omega)⟩

theorem c4_witness :
    callIdxs (gemini_with_retry envAlways503 3 60).2 = [0, 1, 2] ∧
    (gemini_with_retry envAlways503 3 60).1 =
      RetryResult.raised (ofStr "503") := by
  have htr503 : isTransientMsg (ofStr "503") = true := by decide
  have h060 : (0 : ℚ) ≤ 60 := by norm_num
  have h012 : (0 : ℚ) ≤ 1 / 2 := by norm_num
  have h := c4_transient_exhausts_budget envAlways503 (fun _ => ofStr "503")
    (fun i => rfl) (fun i => htr503) (fun i => h060)
    (fun i => le_refl 0) (fun i => h012)
  exact ⟨h.1, h.2.1⟩

theorem c5_witness :
    search_in_book [entrySub, entryExact] (ofStr "  Foo bar ") 1 2 3 =
      some (ofStr "exact-answer", bookKind) :=
  c5_scoped_exact_precedence [entrySub, entryExact] (ofStr "  Foo bar ") 1 2 3
    entryExact entrySub (by decide) (by decide) (by decide) (by decide)
    (by decide) (by decide) (by decide) (by decide)

theorem c6_witness :
    handle_chat depsUnused inpAccept 1 2 3 =
      ChatOutcome.answer
        { response := ofStr "the pending answer", source := geminiSrc,
          log := noCalls } ∧
    handle_chat depsUnused inpCancel 1 2 3 =
      ChatOutcome.answer
        { response := cancelMsg, source := cancelledSrc, log := noCalls } := by
  have ha := c6_pending_confirmation depsUnused inpAccept 1 2 3 (ofStr "yes")
    (ofStr "the pending answer") (by decide) (by decide) rfl (by decide) rfl
    (by decide)
  have hb := c6_pending_confirmation depsUnused inpCancel 1 2 3 (ofStr "no")
    (ofStr "the pending answer") (by decide) (by decide) rfl (by decide) rfl
    (by decide)
  exact ⟨ha.1, hb.1⟩

theorem c7_witness :
    800 < (List.replicate 801 'a').length ∧
    check_answer_from_curriculum (List.replicate 801 'a') [] = false :=
  ⟨by rw [List.length_replicate]; norm_num,
    c7_no_docs_overrides_length (List.replicate 801 'a')
      (by rw [List.length_replicate]; norm_num)⟩

theorem c8_witness :
    check_answer_from_curriculum sampleAnswer [sampleDoc] = true :=
  c8_phrase_overlap_threshold sampleAnswer [sampleDoc] sampleDoc (by decide)
    (by decide) (by decide) (Or.inl (by decide))

theorem c9_witness :
    check_answer_from_curriculum rejAnswer [sampleDoc] = false :=
  c9_rejection_forces_false rejAnswer [sampleDoc] (by decide)

theorem c10_witness :
    handle_chat depsUnused inpConfirmFile 1 2 3 =
      ChatOutcome.answer
        { response := ofStr "the pending answer", source := geminiSrc,
          log := noCalls } ∧
    noCalls.extractorCalled = false ∧ noCalls.fileDeleted = false :=
  c10_confirmation_preempts_file depsUnused inpConfirmFile 1 2 3 (ofStr "yes")
    (ofStr "the pending answer") (by decide) (by decide) rfl (by decide) rfl
    (by decide)
